import Mathlib

/-
Shallow embedding of the dialogue-orchestration core of the AI_Talking_Web
repository (TypeScript/JavaScript sources):
  - AI_Talking_Web/src/services/aiService.ts      (backend adapter layer)
  - AI_Talking_Web/public/js/services/chatService.js   (discussion orchestrator)
  - AI_Talking_Web/public/js/services/debateService.js (debate orchestrator)

Conventions of the embedding:
  - JavaScript strings are Lean String values (lists of characters);
    the JS regular-expression replacements used by the code are implemented
    as explicit fuel-indexed scanners with identical leftmost, non-greedy,
    global semantics for the concrete patterns the source uses.
  - The network layer (axios) is modelled as an oracle Nat -> Except String String:
    the n-th HTTP attempt either throws (Except.error with the error message)
    or yields the extracted response content.  Axios rejections for transport
    errors or non-2xx responses are the Except.error case.
  - Wall-clock time is modelled by an oracle giving the elapsed seconds at the
    n-th time-limit check; the externally mutable stop flag is modelled by an
    oracle giving the value read at the n-th isRunning check.
  - Turn timestamps (new Date()) are omitted: no verified property mentions them.
-/

/- JS whitespace test used by String.prototype.trim (ASCII subset; all inputs
   handled here are ASCII or CJK text without exotic whitespace). -/
def jsWhitespace (c : Char) : Bool :=
  c = ' ' || c = '\n' || c = '\t' || c = '\r' || c = '\x0b' || c = '\x0c'

def jsTrimList (l : List Char) : List Char :=
  ((l.dropWhile jsWhitespace).reverse.dropWhile jsWhitespace).reverse

/- JS String.prototype.trim. -/
def jsTrim (s : String) : String := String.mk (jsTrimList s.data)

/- If the first list is a prefix of the second, return the remainder. -/
def stripPre : List Char → List Char → Option (List Char)
  | [], s => some s
  | _ :: _, [] => none
  | p :: ps, c :: cs => if p = c then stripPre ps cs else none

/- Suffix following the first occurrence of the marker list, if any. -/
def afterFirst (m : List Char) : List Char → Option (List Char)
  | [] => stripPre m []
  | c :: cs =>
    match stripPre m (c :: cs) with
    | some r => some r
    | none => afterFirst m cs

/- The thinking-marker pair of aiService removeThinkingTags:
   regex /<\|im_start\|>think[\s\S]*?<\|im_end\|>/g . -/
def thinkOpen : List Char := String.data "<|im_start|>think"

def thinkClose : List Char := String.data "<|im_end|>"

/- Global, leftmost, non-greedy removal of thinking blocks (the exact
   behaviour of the JS regex replace above). -/
def remThinkAux : Nat → List Char → List Char
  | 0, s => s
  | _ + 1, [] => []
  | f + 1, c :: cs =>
    match stripPre thinkOpen (c :: cs) with
    | some r =>
      match afterFirst thinkClose r with
      | some r2 => remThinkAux f r2
      | none => c :: cs
    | none => c :: remThinkAux f cs

/- aiService.removeThinkingTags. -/
def removeThinkingTags (s : String) : String :=
  String.mk (remThinkAux s.data.length s.data)

/- The three alternatives of aiService removeJsonMetadata:
   /\x7b"tool_call":[\s\S]*?\x7d|\x7b"name":[\s\S]*?\x7d|\x7b"tool_result":[\s\S]*?\x7d/g -/
def toolCallPre : List Char := String.data "\x7b\"tool_call\":"

def namePre : List Char := String.data "\x7b\"name\":"

def toolResultPre : List Char := String.data "\x7b\"tool_result\":"

def jsonClose : Char := '\x7d'

/- Non-greedy match of one alternative at the current position: one of the
   three opening literals, then the shortest run ending at a closing brace. -/
def jsonMatchAt (s : List Char) : Option (List Char) :=
  match stripPre toolCallPre s with
  | some r => afterFirst [jsonClose] r
  | none =>
    match stripPre namePre s with
    | some r => afterFirst [jsonClose] r
    | none =>
      match stripPre toolResultPre s with
      | some r => afterFirst [jsonClose] r
      | none => none

def remJsonAux : Nat → List Char → List Char
  | 0, s => s
  | _ + 1, [] => []
  | f + 1, c :: cs =>
    match jsonMatchAt (c :: cs) with
    | some r => remJsonAux f r
    | none => c :: remJsonAux f cs

/- aiService.removeJsonMetadata. -/
def removeJsonMetadata (s : String) : String :=
  String.mk (remJsonAux s.data.length s.data)

/- JS text.split given the two-character separator of two newlines
   (leftmost, non-overlapping). -/
def blankSep : List Char := ['\n', '\n']

def splitSepAux : Nat → List Char → List Char → List (List Char)
  | 0, acc, s => [acc.reverse ++ s]
  | _ + 1, acc, [] => [acc.reverse]
  | f + 1, acc, c :: cs =>
    match stripPre blankSep (c :: cs) with
    | some r => acc.reverse :: splitSepAux f [] r
    | none => splitSepAux f (c :: acc) cs

def splitParagraphs (s : String) : List String :=
  (splitSepAux s.data.length [] s.data).map String.mk

/- The uniqueParagraphs accumulation loop of compressDuplicateParagraphs:
   keep a paragraph when it trims to non-empty and is not already present. -/
def dedupeParas (ps : List String) : List String :=
  ps.foldl (fun acc p => if (jsTrim p != "") && !(acc.contains p) then acc ++ [p] else acc) []

/- aiService.compressDuplicateParagraphs. -/
def compressDuplicateParagraphs (s : String) : String :=
  String.intercalate "\n\n" (dedupeParas (splitParagraphs s))

/- Length of the leading run of newlines, and the remainder after it. -/
def nlRun : List Char → Nat × List Char
  | [] => (0, [])
  | c :: cs => if c = '\n' then ((nlRun cs).1 + 1, (nlRun cs).2) else (0, c :: cs)

/- Replace every maximal run of three or more newlines by exactly two
   (the JS regex replacing runs of at least three newlines, greedy, global). -/
def compEmptyAux : Nat → List Char → List Char
  | 0, s => s
  | _ + 1, [] => []
  | f + 1, c :: cs =>
    if c = '\n' then
      (if 3 ≤ (nlRun (c :: cs)).1 then ['\n', '\n']
       else List.replicate (nlRun (c :: cs)).1 '\n') ++ compEmptyAux f (nlRun (c :: cs)).2
    else c :: compEmptyAux f cs

/- aiService.compressEmptyLines. -/
def compressEmptyLines (s : String) : String :=
  String.mk (compEmptyAux s.data.length s.data)

/- aiService.processOllamaResponse: thinking tags, then JSON metadata, then
   duplicate paragraphs, then empty lines, then trim. -/
def processOllamaResponse (s : String) : String :=
  jsTrim (compressEmptyLines (compressDuplicateParagraphs (removeJsonMetadata (removeThinkingTags s))))

/- The AIResponse shape of types.ts: success flag with optional content and
   optional error message. -/
structure AIResponse where
  success : Bool
  content : Option String
  error : Option String
deriving DecidableEq

/- aiService.getOllamaResponse.  The Bool records whether ollamaClient is
   non-null (it always is after initClients, but the guard is in the source).
   The oracle net gives the outcome of each HTTP attempt: Except.error is an
   axios rejection (transport error or non-2xx status) carrying the thrown
   error message; Except.ok carries the extracted message content, with the
   fallback to the empty string for a missing content field already applied.
   The returned Nat counts network attempts actually performed. -/
def getOllamaResponse (ollamaInit : Bool) (net : Nat → Except String String) :
    Except String AIResponse × Nat :=
  if ollamaInit then
    match net 0 with
    | Except.error e => (Except.error e, 1)
    | Except.ok body => (Except.ok ⟨true, some (processOllamaResponse body), none⟩, 1)
  else (Except.ok ⟨false, none, some "Ollama client not initialized"⟩, 0)

/- aiService.getOpenAIResponse: content is choices[0].message.content.trim(). -/
def getOpenAIResponse (openaiInit : Bool) (net : Nat → Except String String) :
    Except String AIResponse × Nat :=
  if openaiInit then
    match net 0 with
    | Except.error e => (Except.error e, 1)
    | Except.ok body => (Except.ok ⟨true, some (jsTrim body), none⟩, 1)
  else (Except.ok ⟨false, none, some "OpenAI client not initialized"⟩, 0)

/- aiService.getDeepSeekResponse: same shape as the OpenAI branch. -/
def getDeepSeekResponse (deepseekInit : Bool) (net : Nat → Except String String) :
    Except String AIResponse × Nat :=
  if deepseekInit then
    match net 0 with
    | Except.error e => (Except.error e, 1)
    | Except.ok body => (Except.ok ⟨true, some (jsTrim body), none⟩, 1)
  else (Except.ok ⟨false, none, some "DeepSeek client not initialized"⟩, 0)

/- aiService.getAIResponse: dispatch on the apiType string, with the default
   branch for unsupported types, and the surrounding try/catch turning any
   thrown error into a failure AIResponse carrying the error message. -/
def getAIResponse (apiType : String) (ollamaInit openaiInit deepseekInit : Bool)
    (net : Nat → Except String String) : AIResponse × Nat :=
  let inner : Except String AIResponse × Nat :=
    if apiType = "ollama" then getOllamaResponse ollamaInit net
    else if apiType = "openai" then getOpenAIResponse openaiInit net
    else if apiType = "deepseek" then getDeepSeekResponse deepseekInit net
    else (Except.ok ⟨false, none, some "Unsupported API type"⟩, 0)
  match inner with
  | (Except.ok r, n) => (r, n)
  | (Except.error e, n) => (⟨false, none, some e⟩, n)

/- A message of a conversation history: role system, user or assistant. -/
structure Msg where
  role : String
  content : String
deriving DecidableEq

/- An emitted turn of a discussion or debate (timestamp omitted). -/
structure Turn where
  sender : String
  content : String
deriving DecidableEq

/- Terminal result of an orchestrated run.  stopped marks the explicit-stop
   exit, timeLimit the time-budget exit, failed the catch branch invoking
   onError with the given message. -/
inductive Outcome where
  | completed : Outcome
  | stopped : Outcome
  | timeLimit : Outcome
  | failed : String → Outcome
deriving DecidableEq

/- The configuration consumed by startChat / startDebate.  For discussion
   mode sys1 and sys2 are the fully assembled per-participant system prompts
   (the localStorage defaults are already folded in); for debate mode sys1
   and sys2 are the per-side stance prompts and debSys is the shared
   debateSystemPrompt; timeLimit is config.timeLimit in seconds, 0 meaning
   disabled. -/
structure ChatConfig where
  topic : String
  model1 : String
  model2 : String
  rounds : Nat
  timeLimit : Nat
  sys1 : String
  sys2 : String
  debSys : String

/- Environment of one orchestrated run: resp n is the AIResponse returned by
   the n-th aiService.getAIResponse call, stopAt n the value an isRunning
   check observes at the n-th read (true = a stop request has arrived), and
   elapsed n the elapsed whole seconds at the n-th checkTimeLimit call. -/
structure Env where
  resp : Nat → AIResponse
  stopAt : Nat → Bool
  elapsed : Nat → Nat

/- checkTimeLimit breach condition: a nonzero limit already reached. -/
def breach (cfg : ChatConfig) (env : Env) (n : Nat) : Bool :=
  (cfg.timeLimit != 0) && (cfg.timeLimit ≤ env.elapsed n)

/- chatService: effective content of a reply, mirroring
   response.success && response.content ? response.content.trim() : ''
   (JS truthiness: an absent or empty content string selects ''). -/
def effContent (r : AIResponse) : String :=
  match r.content with
  | some c => if r.success && (c != "") then jsTrim c else ""
  | none => ""

/- The fixed fallback text substituted for an empty reply in chatService. -/
def fallbackText : String := "我对此主题没有特别的见解。"

def recordedContent (r : AIResponse) : String :=
  if effContent r = "" then fallbackText else effContent r

def sender1 (cfg : ChatConfig) : String := "ai1 (" ++ cfg.model1 ++ ")"

def sender2 (cfg : ChatConfig) : String := "ai2 (" ++ cfg.model2 ++ ")"

def sysMsg1 (cfg : ChatConfig) : Msg := ⟨"system", cfg.sys1⟩

def sysMsg2 (cfg : ChatConfig) : Msg := ⟨"system", cfg.sys2⟩

/- Mutable state of one startChat run.  pend carries the local variable
   ai1Content between the two half-turns of the current round; the counters
   index the oracles of Env; callLog records the messages argument of each
   adapter call; round is the loop variable (1-indexed). -/
structure ChatState where
  turns : List Turn
  a1Hist : List Msg
  a2Hist : List Msg
  callLog : List (List Msg)
  calls : Nat
  checks : Nat
  stops : Nat
  round : Nat
  pend : Option String
  done : Option Outcome
deriving DecidableEq

def chatInit (cfg : ChatConfig) : ChatState :=
  ⟨[], [sysMsg1 cfg], [], [], 0, 0, 0, 1, none, none⟩

/- First half of a discussion round (chatService.startChat loop, AI 1 part):
   stop check at the loop head, time check, the adapter call on ai1Messages
   plus the round-1 topic seed, the post-call stop and time checks, then the
   empty-reply guard and the turn and history pushes. -/
def halfA1 (env : Env) (cfg : ChatConfig) (s : ChatState) : ChatState :=
  if env.stopAt s.stops then
    { s with stops := s.stops + 1, done := some Outcome.stopped }
  else if breach cfg env s.checks then
    { s with stops := s.stops + 1, checks := s.checks + 1, done := some Outcome.timeLimit }
  else
    let msgs1 := s.a1Hist ++
      (if s.round = 1 then
        [⟨"user", "请开始讨论主题：" ++ cfg.topic ++ "。请提供你的见解和观点。"⟩]
       else [])
    let r := env.resp s.calls
    if env.stopAt (s.stops + 1) then
      { s with stops := s.stops + 2, checks := s.checks + 1, calls := s.calls + 1,
               callLog := s.callLog ++ [msgs1], done := some Outcome.stopped }
    else if breach cfg env (s.checks + 1) then
      { s with stops := s.stops + 2, checks := s.checks + 2, calls := s.calls + 1,
               callLog := s.callLog ++ [msgs1], done := some Outcome.timeLimit }
    else
      let c1 := recordedContent r
      { s with
        turns := s.turns ++ [⟨sender1 cfg, c1⟩],
        a1Hist := s.a1Hist ++ [⟨"assistant", c1⟩],
        callLog := s.callLog ++ [msgs1],
        calls := s.calls + 1, checks := s.checks + 2, stops := s.stops + 2,
        pend := some c1 }

/- Second half of a discussion round (AI 2 part): stop and time checks, the
   adapter call on the system prompt plus either the round-1 combined topic
   message or the accumulated ai2History, post-call checks, the empty-reply
   guard, and the three history pushes with inverted roles. -/
def halfA2 (env : Env) (cfg : ChatConfig) (s : ChatState) : ChatState :=
  if env.stopAt s.stops then
    { s with stops := s.stops + 1, done := some Outcome.stopped }
  else if breach cfg env s.checks then
    { s with stops := s.stops + 1, checks := s.checks + 1, done := some Outcome.timeLimit }
  else
    let c1 := s.pend.getD ""
    let msgs2 := [sysMsg2 cfg] ++
      (if s.round = 1 then
        [⟨"user", "讨论主题：" ++ cfg.topic ++ "。\nAI 1的观点：" ++ c1⟩]
       else s.a2Hist)
    let r := env.resp s.calls
    if env.stopAt (s.stops + 1) then
      { s with stops := s.stops + 2, checks := s.checks + 1, calls := s.calls + 1,
               callLog := s.callLog ++ [msgs2], done := some Outcome.stopped }
    else if breach cfg env (s.checks + 1) then
      { s with stops := s.stops + 2, checks := s.checks + 2, calls := s.calls + 1,
               callLog := s.callLog ++ [msgs2], done := some Outcome.timeLimit }
    else
      let c2 := recordedContent r
      { s with
        turns := s.turns ++ [⟨sender2 cfg, c2⟩],
        a2Hist := s.a2Hist ++ [⟨"user", c1⟩, ⟨"assistant", c2⟩],
        a1Hist := s.a1Hist ++ [⟨"user", c2⟩],
        callLog := s.callLog ++ [msgs2],
        calls := s.calls + 1, checks := s.checks + 2, stops := s.stops + 2,
        round := s.round + 1, pend := none }

def chatRound (env : Env) (cfg : ChatConfig) (s : ChatState) : ChatState :=
  let s1 := halfA1 env cfg s
  if s1.done.isSome then s1 else halfA2 env cfg s1

def chatLoop (env : Env) (cfg : ChatConfig) : Nat → ChatState → ChatState
  | 0, s => s
  | n + 1, s => if s.done.isSome then s else chatLoop env cfg n (chatRound env cfg s)

/- chatService.startChat: topic validation, then config.rounds iterations of
   the round body, then onComplete (an early stop exits the loop with break
   and also reaches onComplete; the Outcome value keeps the exits apart). -/
def runChat (env : Env) (cfg : ChatConfig) : ChatState :=
  if jsTrim cfg.topic = "" then
    { chatInit cfg with done := some (Outcome.failed "请输入讨论主题") }
  else
    let f := chatLoop env cfg cfg.rounds (chatInit cfg)
    if f.done.isSome then f else { f with done := some Outcome.completed }

/- Template interpolation of an optional error into an error string: an
   undefined error field prints as the text undefined in JS. -/
def errStr (r : AIResponse) : String := r.error.getD "undefined"

def rebutPro : String := "请针对正方的观点进行反驳"

def rebutCon : String := "请针对反方的观点进行反驳"

/- Mutable state of one startDebate run.  a1Msgs and a2Msgs are the two
   message lists the source maintains; the counters index the Env oracles. -/
structure DebState where
  turns : List Turn
  a1Msgs : List Msg
  a2Msgs : List Msg
  callLog : List (List Msg)
  calls : Nat
  checks : Nat
  stops : Nat
  done : Option Outcome
deriving DecidableEq

def debSys1 (cfg : ChatConfig) : Msg :=
  ⟨"system", cfg.debSys ++ "\n辩论主题: " ++ cfg.topic ++ "\n" ++ cfg.sys1⟩

def debSys2 (cfg : ChatConfig) : Msg :=
  ⟨"system", cfg.debSys ++ "\n辩论主题: " ++ cfg.topic ++ "\n" ++ cfg.sys2⟩

def debOpenMsg1 (cfg : ChatConfig) : Msg :=
  ⟨"user", "请开始你的辩论，支持这个观点：" ++ cfg.topic⟩

def debOpenMsg2 (cfg : ChatConfig) : Msg :=
  ⟨"user", "请开始你的辩论，反对这个观点：" ++ cfg.topic⟩

def debInit (cfg : ChatConfig) : DebState :=
  ⟨[], [debSys1 cfg, debOpenMsg1 cfg], [debSys2 cfg, debOpenMsg2 cfg], [], 0, 0, 0, none⟩

/- debateService.startDebate opening move: AI 1 is called once on its seeded
   message list, before the round loop and before any time-limit or stop
   check; a failure throws with the pro-side label, a success emits the
   opening turn and appends it, with the rebuttal instruction, to the
   message list of the con side. -/
def debOpen (env : Env) (cfg : ChatConfig) (s : DebState) : DebState :=
  let r := env.resp s.calls
  if r.success then
    let c1 := r.content.getD ""
    { s with
      turns := s.turns ++ [⟨"ai1", c1⟩],
      a2Msgs := s.a2Msgs ++ [⟨"assistant", c1⟩, ⟨"user", rebutPro⟩],
      callLog := s.callLog ++ [s.a1Msgs],
      calls := s.calls + 1 }
  else
    { s with callLog := s.callLog ++ [s.a1Msgs], calls := s.calls + 1,
             done := some (Outcome.failed ("正方AI生成失败: " ++ errStr r)) }

/- One iteration of the debate round loop: time check then stop check, the
   call of the con side (failure throws with the con label), its turn and the
   pushes onto the list of the pro side, the second time and stop checks, then
   the call of the pro side symmetrically. -/
def debIter (env : Env) (cfg : ChatConfig) (s : DebState) : DebState :=
  if breach cfg env s.checks then
    { s with checks := s.checks + 1, done := some Outcome.timeLimit }
  else if env.stopAt s.stops then
    { s with checks := s.checks + 1, stops := s.stops + 1, done := some Outcome.stopped }
  else
    let r2 := env.resp s.calls
    if r2.success then
      let c2 := r2.content.getD ""
      let s2 : DebState :=
        { s with
          turns := s.turns ++ [⟨"ai2", c2⟩],
          a1Msgs := s.a1Msgs ++ [⟨"assistant", c2⟩, ⟨"user", rebutCon⟩],
          callLog := s.callLog ++ [s.a2Msgs],
          calls := s.calls + 1, checks := s.checks + 1, stops := s.stops + 1 }
      if breach cfg env s2.checks then
        { s2 with checks := s2.checks + 1, done := some Outcome.timeLimit }
      else if env.stopAt s2.stops then
        { s2 with checks := s2.checks + 1, stops := s2.stops + 1, done := some Outcome.stopped }
      else
        let r1 := env.resp s2.calls
        if r1.success then
          let c1 := r1.content.getD ""
          { s2 with
            turns := s2.turns ++ [⟨"ai1", c1⟩],
            a2Msgs := s2.a2Msgs ++ [⟨"assistant", c1⟩, ⟨"user", rebutPro⟩],
            callLog := s2.callLog ++ [s2.a1Msgs],
            calls := s2.calls + 1, checks := s2.checks + 1, stops := s2.stops + 1 }
        else
          { s2 with callLog := s2.callLog ++ [s2.a1Msgs], calls := s2.calls + 1,
                    checks := s2.checks + 1, stops := s2.stops + 1,
                    done := some (Outcome.failed ("正方AI生成失败: " ++ errStr r1)) }
    else
      { s with callLog := s.callLog ++ [s.a2Msgs], calls := s.calls + 1,
               checks := s.checks + 1, stops := s.stops + 1,
               done := some (Outcome.failed ("反方AI生成失败: " ++ errStr r2)) }

def debLoop (env : Env) (cfg : ChatConfig) : Nat → DebState → DebState
  | 0, s => s
  | n + 1, s => if s.done.isSome then s else debLoop env cfg n (debIter env cfg s)

/- debateService.startDebate: topic validation, the opening move, then the
   loop for round = 1 while round < config.rounds, then onComplete. -/
def runDebate (env : Env) (cfg : ChatConfig) : DebState :=
  if jsTrim cfg.topic = "" then
    { debInit cfg with done := some (Outcome.failed "请输入辩论主题") }
  else
    let s1 := debOpen env cfg (debInit cfg)
    if s1.done.isSome then s1
    else
      let f := debLoop env cfg (cfg.rounds - 1) s1
      if f.done.isSome then f else { f with done := some Outcome.completed }



/- Turn pair emitted by one complete discussion round with contents p. -/
def pairT (cfg : ChatConfig) (p : String × String) : List Turn :=
  [⟨sender1 cfg, p.1⟩, ⟨sender2 cfg, p.2⟩]

/- The same pair as recorded in the history of participant 1 (own reply as
   assistant, the peer reply as user). -/
def pairH1 (p : String × String) : List Msg := [⟨"assistant", p.1⟩, ⟨"user", p.2⟩]

/- The same pair as recorded in the history of participant 2 (inverted roles). -/
def pairH2 (p : String × String) : List Msg := [⟨"user", p.1⟩, ⟨"assistant", p.2⟩]

def tailTurns (cfg : ChatConfig) : Option String → List Turn
  | none => []
  | some c => [⟨sender1 cfg, c⟩]

def tailH1 : Option String → List Msg
  | none => []
  | some c => [⟨"assistant", c⟩]

/- Shape of every reachable state of a discussion run: a list of completed
   round pairs plus at most one pending participant-1 utterance that has
   been emitted as a Turn and recorded in the history of its author but not yet
   in the history of the peer. -/
def ChatShape (cfg : ChatConfig) (s : ChatState) : Prop :=
  ∃ cs : List (String × String), ∃ t : Option String,
    s.turns = (cs.map (pairT cfg)).flatten ++ tailTurns cfg t ∧
    s.a1Hist = sysMsg1 cfg :: ((cs.map pairH1).flatten ++ tailH1 t) ∧
    s.a2Hist = (cs.map pairH2).flatten ∧
    s.pend = t

/- Turn pair emitted by one debate loop iteration (con side then pro side). -/
def pairDeb (p : String × String) : List Turn := [⟨"ai2", p.1⟩, ⟨"ai1", p.2⟩]

/- Error message thrown by startDebate when the call of index k fails with
   error text e: calls of odd index are the con side, the others the pro side. -/
def debFailMsg (k : Nat) (e : String) : String :=
  (if k % 2 = 1 then "反方AI生成失败: " else "正方AI生成失败: ") ++ e

/- Boundary shape: the state at a discussion round boundary, with no pending
   participant-1 utterance. -/
def ChatShapeB (cfg : ChatConfig) (s : ChatState) : Prop :=
  ∃ cs : List (String × String),
    s.turns = (cs.map (pairT cfg)).flatten ∧
    s.a1Hist = sysMsg1 cfg :: (cs.map pairH1).flatten ∧
    s.a2Hist = (cs.map pairH2).flatten ∧
    s.pend = none

/- Invariant of the debate loop on the all-successful, unconstrained path:
   after j completed iterations, one opening turn plus j con-pro pairs have
   been emitted, 1 + 2j adapter calls are logged, every logged call after
   the opening ends in the matching rebuttal instruction as its most recent
   user message, and the next con-side prompt ends in the pro-rebuttal
   instruction. -/
def DebInv (cfg : ChatConfig) (j : Nat) (s : DebState) : Prop :=
  s.done = none ∧
  (∃ c0 cs, List.length cs = j ∧
    s.turns = ⟨"ai1", c0⟩ :: (List.map pairDeb cs).flatten) ∧
  s.callLog.length = 1 + 2 * j ∧
  (∀ k, 1 ≤ k → k < s.callLog.length →
    (s.callLog.getD k []).getLast? =
      some ⟨"user", if k % 2 = 1 then rebutPro else rebutCon⟩) ∧
  s.a2Msgs.getLast? = some ⟨"user", rebutPro⟩

/- Concrete environments and configurations used by counterexamples and
   witnesses below. -/
def envOK : Env := ⟨fun _ => ⟨true, some "x", none⟩, fun _ => false, fun _ => 0⟩

def cfgT : ChatConfig := ⟨"T", "m1", "m2", 1, 0, "p1", "p2", "d"⟩

def cfgDeb2 : ChatConfig := ⟨"T", "m1", "m2", 2, 0, "p1", "p2", "d"⟩

def envFail : Env := ⟨fun _ => ⟨false, none, some "boom"⟩, fun _ => false, fun _ => 0⟩

def envWS : Env := ⟨fun _ => ⟨true, some " \n ", none⟩, fun _ => false, fun _ => 0⟩

def envStop2 : Env := ⟨fun _ => ⟨true, some "x", none⟩, fun n => n == 2, fun _ => 0⟩

def envTime : Env := ⟨fun _ => ⟨true, some "x", none⟩, fun _ => false, fun _ => 5⟩

def envTimeMid : Env := ⟨fun _ => ⟨true, some "x", none⟩, fun _ => false,
  fun n => if 2 ≤ n then 50 else 0⟩

def cfgTL : ChatConfig := ⟨"T", "m1", "m2", 1, 1, "p1", "p2", "d"⟩

def cfgTL10 : ChatConfig := ⟨"T", "m1", "m2", 1, 10, "p1", "p2", "d"⟩

def cfgDebTL : ChatConfig := ⟨"T", "m1", "m2", 2, 1, "p1", "p2", "d"⟩

def envFail1 : Env := ⟨fun n => if n = 1 then ⟨false, none, some "boom"⟩
  else ⟨true, some "x", none⟩, fun _ => false, fun _ => 0⟩

def envB3 : Env := ⟨fun _ => ⟨true, some "x", none⟩, fun _ => false,
  fun n => if 3 ≤ n then 50 else 0⟩

def envB1 : Env := ⟨fun _ => ⟨true, some "x", none⟩, fun _ => false,
  fun n => if 1 ≤ n then 50 else 0⟩

def cfgTL2 : ChatConfig := ⟨"T", "m1", "m2", 2, 10, "p1", "p2", "d"⟩

def cfgDebTL3 : ChatConfig := ⟨"T", "m1", "m2", 3, 10, "p1", "p2", "d"⟩

def netTimeout : Nat → Except String String :=
  fun _ => Except.error "timeout of 60000ms exceeded"

def netRefused : Nat → Except String String :=
  fun _ => Except.error "connect ECONNREFUSED 127.0.0.1:11434"

/-- C1, counterexample.  The claim asserts that a backend call hitting
transport-level errors is re-attempted up to 3 times with escalating delays
and that three consecutive timeouts yield a Failure after exactly 3 attempts.
The client of aiService.ts performs no retry at all: with a supply of
timeouts available, getAIResponse returns a failure carrying the first
timeout message after exactly one network attempt, not three. -/
theorem c1_counterexample :
    getAIResponse "ollama" true true true netTimeout =
      (⟨false, none, some "timeout of 60000ms exceeded"⟩, 1) ∧ (1 : Nat) ≠ 3 := by
  exact ⟨by decide, by decide⟩

/-- C1, amended.  For every backend kind, when the single network call of a
backend call throws a transport-level error (connection refused, timeout) or
a non-2xx rejection, the client makes exactly one attempt and returns a
Failure carrying the message of that error; no retry and no backoff delay exist
at this layer. -/
theorem c1_amended (t : String) (net : Nat → Except String String) (e : String)
    (ht : t = "ollama" ∨ t = "openai" ∨ t = "deepseek")
    (he : net 0 = Except.error e) :
    getAIResponse t true true true net = (⟨false, none, some e⟩, 1) := by
  rcases ht with h | h | h <;> subst h <;>
    simp [getAIResponse, getOllamaResponse, getOpenAIResponse, getDeepSeekResponse, he]

/-- Witness for c1_amended at a concrete connection-refused trace. -/
theorem c1_amended_witness :
    getAIResponse "ollama" true true true netRefused =
      (⟨false, none, some "connect ECONNREFUSED 127.0.0.1:11434"⟩, 1) :=
  c1_amended "ollama" netRefused "connect ECONNREFUSED 127.0.0.1:11434" (Or.inl rfl) rfl

/-- C3, counterexample.  The scenario input of the claim uses the think tag pair,
but removeThinkingTags only strips blocks delimited by the im_start think
and im_end markers, so the scenario input is left intact apart from blank
line compression: the post-processed content is not the claimed string. -/
theorem c3_counterexample :
    processOllamaResponse "<think>ignored</think>Hello\n\n\nWorld" =
      "<think>ignored</think>Hello\n\nWorld" ∧
    processOllamaResponse "<think>ignored</think>Hello\n\n\nWorld" ≠ "Hello\n\nWorld" := by
  exact ⟨by decide, by decide⟩

/-- C3, amended.  Post-processing of a local-model response strips every
substring delimited by the marker pair the code actually uses (im_start
think as the opening marker, im_end as the closing marker); in particular
the scenario input written with those markers post-processes to the string
Hello, blank line, World, and a response with two such blocks loses both. -/
theorem c3_amended :
    processOllamaResponse "<|im_start|>thinkignored<|im_end|>Hello\n\n\nWorld" =
      "Hello\n\nWorld" ∧
    removeThinkingTags "A<|im_start|>thinkx<|im_end|>B<|im_start|>thinky<|im_end|>C" =
      "ABC" := by
  exact ⟨by decide, by decide⟩

/-- C10, confirmed.  getAIResponse is total at the public interface: for an
apiType outside the three supported kinds it returns the Unsupported API
type failure without touching the network, and an exception thrown by an
underlying client call is caught and returned as a failure carrying the
error message instead of propagating (the return type of the embedding is
the plain response paired with the attempt count, with no error channel). -/
theorem c10_total_interface :
    (∀ t o p d net, ¬(t = "ollama" ∨ t = "openai" ∨ t = "deepseek") →
      getAIResponse t o p d net = (⟨false, none, some "Unsupported API type"⟩, 0)) ∧
    (∀ t net e, (t = "ollama" ∨ t = "openai" ∨ t = "deepseek") →
      net 0 = Except.error e →
      (getAIResponse t true true true net).1 = ⟨false, none, some e⟩) := by
  constructor
  · intro t o p d net h
    push_neg at h
    obtain ⟨h1, h2, h3⟩ := h
    simp [getAIResponse, h1, h2, h3]
  · intro t net e ht he
    rcases ht with h | h | h <;> subst h <;>
      simp [getAIResponse, getOllamaResponse, getOpenAIResponse, getDeepSeekResponse, he]

/-- Witness for c10_total_interface: an unsupported kind and a thrown error
at concrete inputs. -/
theorem c10_total_interface_witness :
    getAIResponse "grok" true true true netTimeout =
      (⟨false, none, some "Unsupported API type"⟩, 0) ∧
    (getAIResponse "openai" true true true netTimeout).1 =
      ⟨false, none, some "timeout of 60000ms exceeded"⟩ := by
  exact ⟨c10_total_interface.1 "grok" true true true netTimeout (by decide),
    c10_total_interface.2 "openai" netTimeout "timeout of 60000ms exceeded"
      (Or.inr (Or.inl rfl)) rfl⟩

/- A state whose done field is set is a fixed point of the discussion loop. -/
theorem chatLoop_done (env : Env) (cfg : ChatConfig) (n : Nat) (s : ChatState)
    (h : s.done.isSome) : chatLoop env cfg n s = s := by
  cases n <;> simp [chatLoop, h]

/- A state whose done field is set is a fixed point of the debate loop. -/
theorem debLoop_done (env : Env) (cfg : ChatConfig) (n : Nat) (s : DebState)
    (h : s.done.isSome) : debLoop env cfg n s = s := by
  cases n <;> simp [debLoop, h]

/- Each discussion half-turn emits at most one turn. -/
theorem halfA1_turns_le (env : Env) (cfg : ChatConfig) (s : ChatState) :
    (halfA1 env cfg s).turns.length ≤ s.turns.length + 1 := by
  unfold halfA1
  repeat' split
  all_goals simp

theorem halfA2_turns_le (env : Env) (cfg : ChatConfig) (s : ChatState) :
    (halfA2 env cfg s).turns.length ≤ s.turns.length + 1 := by
  unfold halfA2
  repeat' split
  all_goals simp

/- Each discussion round emits at most two turns. -/
theorem chatRound_turns_le (env : Env) (cfg : ChatConfig) (s : ChatState) :
    (chatRound env cfg s).turns.length ≤ s.turns.length + 2 := by
  have h1 := halfA1_turns_le env cfg s
  have h2 := halfA2_turns_le env cfg (halfA1 env cfg s)
  simp only [chatRound]
  split
  · omega
  · omega

theorem chatLoop_turns_le (env : Env) (cfg : ChatConfig) :
    ∀ n s, (chatLoop env cfg n s).turns.length ≤ s.turns.length + 2 * n := by
  intro n
  induction n with
  | zero => intro s; simp [chatLoop]
  | succ n ih =>
    intro s
    simp only [chatLoop]
    split
    · omega
    · have h1 := ih (chatRound env cfg s)
      have h2 := chatRound_turns_le env cfg s
      omega

/- The debate opening emits at most one turn; each iteration at most two. -/
theorem debOpen_turns_le (env : Env) (cfg : ChatConfig) (s : DebState) :
    (debOpen env cfg s).turns.length ≤ s.turns.length + 1 := by
  simp only [debOpen]
  split
  all_goals simp

theorem debIter_turns_le (env : Env) (cfg : ChatConfig) (s : DebState) :
    (debIter env cfg s).turns.length ≤ s.turns.length + 2 := by
  simp only [debIter]
  repeat' split
  all_goals simp

theorem debLoop_turns_le (env : Env) (cfg : ChatConfig) :
    ∀ n s, (debLoop env cfg n s).turns.length ≤ s.turns.length + 2 * n := by
  intro n
  induction n with
  | zero => intro s; simp [debLoop]
  | succ n ih =>
    intro s
    simp only [debLoop]
    split
    · omega
    · have h1 := ih (debIter env cfg s)
      have h2 := debIter_turns_le env cfg s
      omega

/-- C6, confirmed.  For every session environment and configuration, over
every termination path (rounds exhausted, time limit, stop, failure), the
number of emitted turns is at most twice maxRounds in discussion mode and at
most one more than twice maxRounds minus one in debate mode. -/
theorem c6_turn_bounds (env : Env) (cfg : ChatConfig) :
    (runChat env cfg).turns.length ≤ 2 * cfg.rounds ∧
    (runDebate env cfg).turns.length ≤ 1 + 2 * (cfg.rounds - 1) := by
  constructor
  · simp only [runChat]
    split
    · simp [chatInit]
    · have h := chatLoop_turns_le env cfg cfg.rounds (chatInit cfg)
      simp only [chatInit] at h
      split
      · simpa using h
      · simpa using h
  · simp only [runDebate]
    split
    · simp [debInit]
    · have hop := debOpen_turns_le env cfg (debInit cfg)
      have h := debLoop_turns_le env cfg (cfg.rounds - 1) (debOpen env cfg (debInit cfg))
      have h0 : (debInit cfg).turns = [] := rfl
      rw [h0] at hop
      simp only [List.length_nil, Nat.zero_add] at hop
      split
      · omega
      · split
        · omega
        · simp only []
          omega

/- Case analysis of the first discussion half-turn: either one of its four
   checks fires, leaving every history field untouched and setting done, or
   the half-turn completes, emitting one turn by participant 1 and recording
   it in the history of participant 1 only. -/
theorem halfA1_cases (env : Env) (cfg : ChatConfig) (s : ChatState) :
    ((halfA1 env cfg s).turns = s.turns ∧ (halfA1 env cfg s).a1Hist = s.a1Hist ∧
      (halfA1 env cfg s).a2Hist = s.a2Hist ∧ (halfA1 env cfg s).pend = s.pend ∧
      (halfA1 env cfg s).done.isSome) ∨
    ((halfA1 env cfg s).turns =
        s.turns ++ [⟨sender1 cfg, recordedContent (env.resp s.calls)⟩] ∧
      (halfA1 env cfg s).a1Hist =
        s.a1Hist ++ [⟨"assistant", recordedContent (env.resp s.calls)⟩] ∧
      (halfA1 env cfg s).a2Hist = s.a2Hist ∧
      (halfA1 env cfg s).pend = some (recordedContent (env.resp s.calls)) ∧
      (halfA1 env cfg s).done = s.done) := by
  simp only [halfA1]
  repeat' split
  all_goals simp

/- Case analysis of the second discussion half-turn: either a check fires
   with every history field untouched, or the half-turn completes, emitting
   one turn by participant 2 and recording the pending participant-1 content
   as user plus the new reply as assistant in the history of participant 2,
   and the new reply as user in the history of participant 1. -/
theorem halfA2_cases (env : Env) (cfg : ChatConfig) (s : ChatState) :
    ((halfA2 env cfg s).turns = s.turns ∧ (halfA2 env cfg s).a1Hist = s.a1Hist ∧
      (halfA2 env cfg s).a2Hist = s.a2Hist ∧ (halfA2 env cfg s).pend = s.pend ∧
      (halfA2 env cfg s).done.isSome) ∨
    ((halfA2 env cfg s).turns =
        s.turns ++ [⟨sender2 cfg, recordedContent (env.resp s.calls)⟩] ∧
      (halfA2 env cfg s).a1Hist =
        s.a1Hist ++ [⟨"user", recordedContent (env.resp s.calls)⟩] ∧
      (halfA2 env cfg s).a2Hist =
        s.a2Hist ++ [⟨"user", s.pend.getD ""⟩,
          ⟨"assistant", recordedContent (env.resp s.calls)⟩] ∧
      (halfA2 env cfg s).pend = none ∧
      (halfA2 env cfg s).done = s.done) := by
  simp only [halfA2]
  repeat' split
  all_goals simp

/- One discussion round maps a running boundary state to a state satisfying
   the full shape, and to a boundary state again when it did not terminate. -/
theorem chatRound_shape (env : Env) (cfg : ChatConfig) (s : ChatState)
    (hdone : s.done = none) (h : ChatShapeB cfg s) :
    ChatShape cfg (chatRound env cfg s) ∧
    ((chatRound env cfg s).done = none → ChatShapeB cfg (chatRound env cfg s)) := by
  obtain ⟨cs, ht, h1, h2, hp⟩ := h
  rcases halfA1_cases env cfg s with
    ⟨e1, e2, e3, e4, e5⟩ | ⟨e1, e2, e3, e4, e5⟩
  · have hr : chatRound env cfg s = halfA1 env cfg s := by
      simp only [chatRound]
      rw [if_pos e5]
    rw [hr]
    constructor
    · exact ⟨cs, none, by simp [tailTurns, tailH1, e1, e2, e3, e4, hp, ht, h1, h2]⟩
    · intro hc
      rw [hc] at e5
      simp at e5
  · have hnone : (halfA1 env cfg s).done = none := by rw [e5, hdone]
    have hr : chatRound env cfg s = halfA2 env cfg (halfA1 env cfg s) := by
      simp only [chatRound]
      rw [if_neg (by simp [hnone])]
    rw [hr]
    rcases halfA2_cases env cfg (halfA1 env cfg s) with
      ⟨f1, f2, f3, f4, f5⟩ | ⟨f1, f2, f3, f4, f5⟩
    · constructor
      · refine ⟨cs, some (recordedContent (env.resp s.calls)), ?_, ?_, ?_, ?_⟩
        · rw [f1, e1, ht]; simp [tailTurns]
        · rw [f2, e2, h1]; simp [tailH1]
        · rw [f3, e3, h2]
        · rw [f4, e4]
      · intro hc
        rw [hc] at f5
        simp at f5
    · constructor
      · refine ⟨cs ++ [(recordedContent (env.resp s.calls),
          recordedContent (env.resp (halfA1 env cfg s).calls))], none, ?_, ?_, ?_, ?_⟩
        · rw [f1, e1, ht]; simp [tailTurns, pairT]
        · rw [f2, e2, h1]; simp [tailH1, pairH1]
        · rw [f3, e3, e4, h2]; simp [pairH2]
        · exact f4
      · intro _
        refine ⟨cs ++ [(recordedContent (env.resp s.calls),
          recordedContent (env.resp (halfA1 env cfg s).calls))], ?_, ?_, ?_, ?_⟩
        · rw [f1, e1, ht]; simp [pairT]
        · rw [f2, e2, h1]; simp [pairH1]
        · rw [f3, e3, e4, h2]; simp [pairH2]
        · exact f4

theorem chatLoop_shape (env : Env) (cfg : ChatConfig) :
    ∀ n s, s.done = none → ChatShapeB cfg s → ChatShape cfg (chatLoop env cfg n s) := by
  intro n
  induction n with
  | zero =>
    intro s _ h
    obtain ⟨cs, ht, h1, h2, hp⟩ := h
    exact ⟨cs, none, by simp [chatLoop, tailTurns, tailH1, ht, h1, h2, hp]⟩
  | succ n ih =>
    intro s hdone h
    simp only [chatLoop]
    rw [if_neg (by simp [hdone])]
    by_cases hd : (chatRound env cfg s).done = none
    · exact ih _ hd ((chatRound_shape env cfg s hdone h).2 hd)
    · rw [chatLoop_done env cfg n _ (Option.isSome_iff_ne_none.mpr hd)]
      exact (chatRound_shape env cfg s hdone h).1

/- Every final state of a discussion run satisfies the shape invariant. -/
theorem runChat_shape (env : Env) (cfg : ChatConfig) :
    ChatShape cfg (runChat env cfg) := by
  simp only [runChat]
  split
  · exact ⟨[], none, by simp [chatInit, tailTurns, tailH1]⟩
  · have h := chatLoop_shape env cfg cfg.rounds (chatInit cfg) rfl
      ⟨[], by simp [chatInit], by simp [chatInit], by simp [chatInit], rfl⟩
    obtain ⟨cs, t, ht, h1, h2, hp⟩ := h
    split
    · exact ⟨cs, t, ht, h1, h2, hp⟩
    · exact ⟨cs, t, by simp [ht, h1, h2, hp]⟩

/- Each complete round contributes two entries to every flattened pair list. -/
theorem pairs_flatten_length (cfg : ChatConfig) (cs : List (String × String)) :
    ((cs.map (pairT cfg)).flatten).length = 2 * cs.length ∧
    ((cs.map pairH1).flatten).length = 2 * cs.length ∧
    ((cs.map pairH2).flatten).length = 2 * cs.length := by
  induction cs with
  | nil => simp
  | cons p ps ih =>
    simp only [List.map_cons, List.flatten_cons, List.length_append, List.length_cons,
      pairT, pairH1, pairH2, List.length_nil]
    omega

/-- C8, counterexample.  The claim asserts that after k total turns a
perspective history of a participant has exactly 1 + k entries at every point
of a discussion run.  In the code the history of participant 2 is only extended
after the own reply of participant 2: in a run whose time budget expires
right after the first turn of participant 1, one turn has been emitted
while the system-prefixed history of participant 2 still has one entry,
not two. -/
theorem c8_counterexample :
    (runChat envTimeMid cfgTL10).turns.length = 1 ∧
    (sysMsg2 cfgTL10 :: (runChat envTimeMid cfgTL10).a2Hist).length ≠
      1 + (runChat envTimeMid cfgTL10).turns.length := by
  exact ⟨by decide, by decide⟩

/-- C8, amended.  In every discussion run, the history of participant 1
always has exactly 1 + k entries after k emitted turns with the system
entry first; the history of participant 2 is extended only after its own
reply, so its system-prefixed entry count equals 1 + k at round boundaries
and k when the run ended after the participant-1 half-turn of an
unfinished round. -/
theorem c8_amended (env : Env) (cfg : ChatConfig) :
    (runChat env cfg).a1Hist.length = 1 + (runChat env cfg).turns.length ∧
    (runChat env cfg).a1Hist.head? = some (sysMsg1 cfg) ∧
    ((sysMsg2 cfg :: (runChat env cfg).a2Hist).length =
        1 + (runChat env cfg).turns.length ∨
      (sysMsg2 cfg :: (runChat env cfg).a2Hist).length =
        (runChat env cfg).turns.length) := by
  obtain ⟨cs, t, ht, h1, h2, _⟩ := runChat_shape env cfg
  obtain ⟨l1, l2, l3⟩ := pairs_flatten_length cfg cs
  cases t with
  | none =>
    refine ⟨?_, ?_, Or.inl ?_⟩
    · rw [ht, h1]; simp [tailTurns, tailH1, l1, l2]; omega
    · rw [h1]; simp
    · rw [ht, h2]; simp [tailTurns, l1, l3]; omega
  | some c =>
    refine ⟨?_, ?_, Or.inr ?_⟩
    · rw [ht, h1]; simp [tailTurns, tailH1, l1, l2]; omega
    · rw [h1]; simp
    · rw [ht, h2]; simp [tailTurns, l1, l3]

/-- C9, counterexample.  The claim asserts every utterance of a discussion
run is recorded as assistant in the history of its author and as user in
the history of the other participant.  A run stopped right after the first
turn of participant 1 has emitted that utterance, yet the history of
participant 2 is empty: the
utterance was never recorded as user on the peer side. -/
theorem c9_counterexample :
    (runChat envStop2 cfgT).turns = [⟨sender1 cfgT, "x"⟩] ∧
    (runChat envStop2 cfgT).a2Hist = [] := by
  exact ⟨by decide, by decide⟩

/-- C9, amended.  In every discussion run the emitted turns split into
completed round pairs plus at most one trailing participant-1 utterance:
each completed pair is recorded as assistant then user in the history of
participant 1 and as user then assistant in the history of participant 2
(role
inversion is bijective on completed rounds, so roles reconstruct
authorship), while a trailing utterance produced just before termination is
recorded as assistant in the history of its author only. -/
theorem c9_amended (env : Env) (cfg : ChatConfig) :
    ∃ cs : List (String × String), ∃ t : Option String,
      (runChat env cfg).turns = (cs.map (pairT cfg)).flatten ++ tailTurns cfg t ∧
      (runChat env cfg).a1Hist =
        sysMsg1 cfg :: ((cs.map pairH1).flatten ++ tailH1 t) ∧
      (runChat env cfg).a2Hist = (cs.map pairH2).flatten := by
  obtain ⟨cs, t, ht, h1, h2, _⟩ := runChat_shape env cfg
  exact ⟨cs, t, ht, h1, h2⟩

/- With a zero time limit the breach condition never fires. -/
theorem breach_zero (env : Env) (cfg : ChatConfig) (n : Nat)
    (htl : cfg.timeLimit = 0) : breach cfg env n = false := by
  simp [breach, htl]

/- The only terminal outcomes a discussion half-turn can introduce are
   stopped and timeLimit. -/
theorem halfA1_done_kind (env : Env) (cfg : ChatConfig) (s : ChatState) :
    (halfA1 env cfg s).done = s.done ∨
    (halfA1 env cfg s).done = some Outcome.stopped ∨
    (halfA1 env cfg s).done = some Outcome.timeLimit := by
  simp only [halfA1]
  repeat' split
  all_goals simp

theorem halfA2_done_kind (env : Env) (cfg : ChatConfig) (s : ChatState) :
    (halfA2 env cfg s).done = s.done ∨
    (halfA2 env cfg s).done = some Outcome.stopped ∨
    (halfA2 env cfg s).done = some Outcome.timeLimit := by
  simp only [halfA2]
  repeat' split
  all_goals simp

theorem chatRound_done_kind (env : Env) (cfg : ChatConfig) (s : ChatState) :
    (chatRound env cfg s).done = s.done ∨
    (chatRound env cfg s).done = some Outcome.stopped ∨
    (chatRound env cfg s).done = some Outcome.timeLimit := by
  simp only [chatRound]
  split
  · exact halfA1_done_kind env cfg s
  · rcases halfA2_done_kind env cfg (halfA1 env cfg s) with h | h | h
    · rw [h]; exact halfA1_done_kind env cfg s
    · exact Or.inr (Or.inl h)
    · exact Or.inr (Or.inr h)

theorem chatLoop_done_kind (env : Env) (cfg : ChatConfig) :
    ∀ n s, (chatLoop env cfg n s).done = s.done ∨
      (chatLoop env cfg n s).done = some Outcome.stopped ∨
      (chatLoop env cfg n s).done = some Outcome.timeLimit := by
  intro n
  induction n with
  | zero => intro s; simp [chatLoop]
  | succ n ih =>
    intro s
    simp only [chatLoop]
    split
    · simp
    · rcases ih (chatRound env cfg s) with h | h | h
      · rw [h]; exact chatRound_done_kind env cfg s
      · exact Or.inr (Or.inl h)
      · exact Or.inr (Or.inr h)

/- With a zero time limit a discussion half-turn cannot exit by time. -/
theorem halfA1_no_tl (env : Env) (cfg : ChatConfig) (s : ChatState)
    (htl : cfg.timeLimit = 0) :
    (halfA1 env cfg s).done = s.done ∨
    (halfA1 env cfg s).done = some Outcome.stopped := by
  simp only [halfA1, breach_zero env cfg _ htl]
  repeat' split
  all_goals simp_all

theorem halfA2_no_tl (env : Env) (cfg : ChatConfig) (s : ChatState)
    (htl : cfg.timeLimit = 0) :
    (halfA2 env cfg s).done = s.done ∨
    (halfA2 env cfg s).done = some Outcome.stopped := by
  simp only [halfA2, breach_zero env cfg _ htl]
  repeat' split
  all_goals simp_all

theorem chatRound_no_tl (env : Env) (cfg : ChatConfig) (s : ChatState)
    (htl : cfg.timeLimit = 0) :
    (chatRound env cfg s).done = s.done ∨
    (chatRound env cfg s).done = some Outcome.stopped := by
  simp only [chatRound]
  split
  · exact halfA1_no_tl env cfg s htl
  · rcases halfA2_no_tl env cfg (halfA1 env cfg s) htl with h | h
    · rw [h]; exact halfA1_no_tl env cfg s htl
    · exact Or.inr h

theorem chatLoop_no_tl (env : Env) (cfg : ChatConfig) (htl : cfg.timeLimit = 0) :
    ∀ n s, (chatLoop env cfg n s).done = s.done ∨
      (chatLoop env cfg n s).done = some Outcome.stopped := by
  intro n
  induction n with
  | zero => intro s; simp [chatLoop]
  | succ n ih =>
    intro s
    simp only [chatLoop]
    split
    · simp
    · rcases ih (chatRound env cfg s) with h | h
      · rw [h]; exact chatRound_no_tl env cfg s htl
      · exact Or.inr h

/- Outcome kinds of the debate steps. -/
theorem debOpen_done_kind (env : Env) (cfg : ChatConfig) (s : DebState) :
    (debOpen env cfg s).done = s.done ∨
    ∃ e, (debOpen env cfg s).done = some (Outcome.failed e) := by
  simp only [debOpen]
  split
  · simp
  · simp

theorem debIter_done_kind (env : Env) (cfg : ChatConfig) (s : DebState) :
    (debIter env cfg s).done = s.done ∨
    (debIter env cfg s).done = some Outcome.stopped ∨
    (debIter env cfg s).done = some Outcome.timeLimit ∨
    ∃ e, (debIter env cfg s).done = some (Outcome.failed e) := by
  simp only [debIter]
  repeat' split
  all_goals simp

theorem debIter_no_tl (env : Env) (cfg : ChatConfig) (s : DebState)
    (htl : cfg.timeLimit = 0) :
    (debIter env cfg s).done = s.done ∨
    (debIter env cfg s).done = some Outcome.stopped ∨
    ∃ e, (debIter env cfg s).done = some (Outcome.failed e) := by
  simp only [debIter, breach_zero env cfg _ htl]
  repeat' split
  all_goals simp_all

theorem debLoop_no_tl (env : Env) (cfg : ChatConfig) (htl : cfg.timeLimit = 0) :
    ∀ n s, (debLoop env cfg n s).done = s.done ∨
      (debLoop env cfg n s).done = some Outcome.stopped ∨
      ∃ e, (debLoop env cfg n s).done = some (Outcome.failed e) := by
  intro n
  induction n with
  | zero => intro s; simp [debLoop]
  | succ n ih =>
    intro s
    simp only [debLoop]
    split
    · simp
    · rcases ih (debIter env cfg s) with h | h | h
      · rw [h]; exact debIter_no_tl env cfg s htl
      · exact Or.inr (Or.inl h)
      · exact Or.inr (Or.inr h)

/- With no time breach and no stop, a failing con-side call aborts the
   iteration with the con label and leaves the emitted turns untouched. -/
theorem debIter_conFail (env : Env) (cfg : ChatConfig) (s : DebState)
    (hstop : ∀ n, env.stopAt n = false) (htl : cfg.timeLimit = 0)
    (hf : (env.resp s.calls).success = false) :
    (debIter env cfg s).done =
      some (Outcome.failed ("反方AI生成失败: " ++ errStr (env.resp s.calls))) ∧
    (debIter env cfg s).turns = s.turns := by
  simp only [debIter, breach_zero env cfg _ htl, hstop, hf]
  simp

/- With no time breach and no stop, a successful con-side call followed by a
   failing pro-side call aborts with the pro label, keeping the con turn. -/
theorem debIter_proFail (env : Env) (cfg : ChatConfig) (s : DebState)
    (hstop : ∀ n, env.stopAt n = false) (htl : cfg.timeLimit = 0)
    (h2 : (env.resp s.calls).success = true)
    (h1 : (env.resp (s.calls + 1)).success = false) :
    (debIter env cfg s).done =
      some (Outcome.failed ("正方AI生成失败: " ++ errStr (env.resp (s.calls + 1)))) ∧
    (debIter env cfg s).turns =
      s.turns ++ [⟨"ai2", (env.resp s.calls).content.getD ""⟩] := by
  simp only [debIter, breach_zero env cfg _ htl, hstop, h2, h1]
  simp

/- With no time breach, no stop and two successful calls, one debate
   iteration extends the state exactly as the loop body writes it. -/
theorem debIter_ok (env : Env) (cfg : ChatConfig) (s : DebState)
    (hstop : ∀ n, env.stopAt n = false) (htl : cfg.timeLimit = 0)
    (h2 : (env.resp s.calls).success = true)
    (h1 : (env.resp (s.calls + 1)).success = true) :
    debIter env cfg s = { s with
      turns := s.turns ++ [⟨"ai2", (env.resp s.calls).content.getD ""⟩,
        ⟨"ai1", (env.resp (s.calls + 1)).content.getD ""⟩],
      a1Msgs := s.a1Msgs ++ [⟨"assistant", (env.resp s.calls).content.getD ""⟩,
        ⟨"user", rebutCon⟩],
      a2Msgs := s.a2Msgs ++ [⟨"assistant", (env.resp (s.calls + 1)).content.getD ""⟩,
        ⟨"user", rebutPro⟩],
      callLog := s.callLog ++ [s.a2Msgs,
        s.a1Msgs ++ [⟨"assistant", (env.resp s.calls).content.getD ""⟩,
          ⟨"user", rebutCon⟩]],
      calls := s.calls + 1 + 1, checks := s.checks + 1 + 1,
      stops := s.stops + 1 + 1 } := by
  simp only [debIter, breach_zero env cfg _ htl, hstop, h2, h1]
  simp

/- If the calls with index below k succeed and call k fails, a debate loop
   entered at a running state with 2i+1 calls consumed and 2i+1 turns
   emitted terminates in the Failed outcome carrying the side label of call
   k and the failing error text, with exactly k turns emitted. -/
theorem debLoop_firstFail (env : Env) (cfg : ChatConfig) (k : Nat)
    (hok : ∀ j, j < k → (env.resp j).success = true)
    (hfail : (env.resp k).success = false)
    (hstop : ∀ n, env.stopAt n = false) (htl : cfg.timeLimit = 0) :
    ∀ n i s, s.done = none → s.calls = 2 * i + 1 → s.turns.length = 2 * i + 1 →
      2 * i + 1 ≤ k → k ≤ 2 * (i + n) →
      (debLoop env cfg n s).done =
        some (Outcome.failed (debFailMsg k (errStr (env.resp k)))) ∧
      (debLoop env cfg n s).turns.length = k := by
  intro n
  induction n with
  | zero =>
    intro i s _ _ _ h4 h5
    omega
  | succ n ih =>
    intro i s hdone hc htn h4 h5
    simp only [debLoop]
    rw [if_neg (by simp [hdone])]
    by_cases hk1 : k = 2 * i + 1
    · have hf : (env.resp s.calls).success = false := by
        rw [hc, ← hk1]; exact hfail
      obtain ⟨hd, ht⟩ := debIter_conFail env cfg s hstop htl hf
      rw [debLoop_done env cfg n _ (by simp [hd])]
      have hmsg : debFailMsg k (errStr (env.resp k)) =
          "反方AI生成失败: " ++ errStr (env.resp s.calls) := by
        rw [hc, ← hk1]
        simp only [debFailMsg]
        have : k % 2 = 1 := by omega
        rw [this]
        simp
      exact ⟨by rw [hd, hmsg], by rw [ht, htn, hk1]⟩
    · have hlt1 : 2 * i + 1 < k := by omega
      have h2 : (env.resp s.calls).success = true := by
        rw [hc]; exact hok _ hlt1
      by_cases hk2 : k = 2 * i + 2
      · have h1 : (env.resp (s.calls + 1)).success = false := by
          rw [hc, show 2 * i + 1 + 1 = k by omega]; exact hfail
        obtain ⟨hd, ht⟩ := debIter_proFail env cfg s hstop htl h2 h1
        rw [debLoop_done env cfg n _ (by simp [hd])]
        have hmsg : debFailMsg k (errStr (env.resp k)) =
            "正方AI生成失败: " ++ errStr (env.resp (s.calls + 1)) := by
          rw [hc, show 2 * i + 1 + 1 = k by omega]
          simp only [debFailMsg]
          have : k % 2 = 0 := by omega
          rw [this]
          simp
        refine ⟨by rw [hd, hmsg], ?_⟩
        rw [ht]
        simp [htn]
        omega
      · have h1 : (env.resp (s.calls + 1)).success = true := by
          rw [hc]; exact hok _ (by omega)
        rw [debIter_ok env cfg s hstop htl h2 h1]
        exact ih (i + 1) _ (by simp [hdone]) (by simp [hc]; omega)
          (by simp [htn]; omega) (by omega) (by omega)

/- The debate opening on a successful call: one pro turn is emitted and the
   reply is pushed, with the rebuttal instruction, onto the con list. -/
theorem debOpen_ok (env : Env) (cfg : ChatConfig) (s : DebState)
    (h : (env.resp s.calls).success = true) :
    debOpen env cfg s = { s with
      turns := s.turns ++ [⟨"ai1", (env.resp s.calls).content.getD ""⟩],
      a2Msgs := s.a2Msgs ++ [⟨"assistant", (env.resp s.calls).content.getD ""⟩,
        ⟨"user", rebutPro⟩],
      callLog := s.callLog ++ [s.a1Msgs],
      calls := s.calls + 1 } := by
  simp only [debOpen, h]
  simp

/- The debate opening on a failing call throws with the pro label. -/
theorem debOpen_fail (env : Env) (cfg : ChatConfig) (s : DebState)
    (h : (env.resp s.calls).success = false) :
    debOpen env cfg s = { s with
      callLog := s.callLog ++ [s.a1Msgs],
      calls := s.calls + 1,
      done := some (Outcome.failed ("正方AI生成失败: " ++ errStr (env.resp s.calls))) } := by
  simp only [debOpen, h]
  simp

/-- C2, counterexample.  The claim asserts that in both modes an adapter
Failure at any half-turn aborts the run in the Failed state.  In discussion
mode a failing adapter response is treated as an empty reply: the run
records the fallback text for both half-turns of the round and terminates
Completed, not Failed. -/
theorem c2_counterexample :
    (runChat envFail cfgT).done = some Outcome.completed ∧
    (runChat envFail cfgT).turns =
      [⟨sender1 cfgT, fallbackText⟩, ⟨sender2 cfgT, fallbackText⟩] := by
  exact ⟨by decide, by decide⟩

/-- C2, amended.  In debate mode, when the first failing adapter call is the
one of index k (reached under no stop and no time limit), the run aborts in
the Failed state carrying the label of the failing side and the underlying error
text, and the k turns emitted before the failure all remain; in discussion
mode an adapter Failure never produces a Failed outcome: given a nonempty
topic the run continues through the fallback-text substitution instead. -/
theorem c2_amended :
    (∀ env cfg k, jsTrim cfg.topic ≠ "" →
      (∀ j, j < k → (env.resp j).success = true) →
      (env.resp k).success = false →
      (∀ n, env.stopAt n = false) → cfg.timeLimit = 0 →
      k ≤ 2 * (cfg.rounds - 1) →
      (runDebate env cfg).done =
        some (Outcome.failed (debFailMsg k (errStr (env.resp k)))) ∧
      (runDebate env cfg).turns.length = k) ∧
    (∀ env cfg m, jsTrim cfg.topic ≠ "" →
      (runChat env cfg).done ≠ some (Outcome.failed m)) := by
  constructor
  · intro env cfg k htop hok hfail hstop htl hk
    simp only [runDebate]
    rw [if_neg htop]
    by_cases hk0 : k = 0
    · subst hk0
      have hf : (env.resp (debInit cfg).calls).success = false := hfail
      rw [debOpen_fail env cfg (debInit cfg) hf]
      rw [if_pos (by simp)]
      constructor
      · simp [debFailMsg, debInit]
      · simp [debInit]
    · have hsucc0 : (env.resp (debInit cfg).calls).success = true :=
        hok 0 (by omega)
      rw [debOpen_ok env cfg (debInit cfg) hsucc0]
      rw [if_neg (by simp [debInit])]
      obtain ⟨fd, ftn⟩ := debLoop_firstFail env cfg k hok hfail hstop htl
        (cfg.rounds - 1) 0
        { debInit cfg with
          turns := (debInit cfg).turns ++ [⟨"ai1", (env.resp (debInit cfg).calls).content.getD ""⟩],
          a2Msgs := (debInit cfg).a2Msgs ++ [⟨"assistant", (env.resp (debInit cfg).calls).content.getD ""⟩,
            ⟨"user", rebutPro⟩],
          callLog := (debInit cfg).callLog ++ [(debInit cfg).a1Msgs],
          calls := (debInit cfg).calls + 1 }
        (by simp [debInit]) (by simp [debInit]) (by simp [debInit])
        (by omega) (by omega)
      rw [if_pos (by simp [fd])]
      exact ⟨fd, ftn⟩
  · intro env cfg m htop
    simp only [runChat]
    rw [if_neg htop]
    have hinit : (chatInit cfg).done = none := rfl
    have hk := chatLoop_done_kind env cfg cfg.rounds (chatInit cfg)
    rw [hinit] at hk
    split
    · rcases hk with h | h | h <;> simp [h]
    · simp

/-- Witness for c2_amended: a debate whose second call fails aborts with the
con-side label and one retained turn, and a discussion with every call
failing does not end in the Failed state. -/
theorem c2_amended_witness :
    ((runDebate envFail1 cfgDeb2).done =
        some (Outcome.failed (debFailMsg 1 (errStr (envFail1.resp 1)))) ∧
      (runDebate envFail1 cfgDeb2).turns.length = 1) ∧
    (runChat envFail cfgT).done ≠ some (Outcome.failed "boom") := by
  refine ⟨c2_amended.1 envFail1 cfgDeb2 1 (by decide) ?_ (by decide)
    (fun n => rfl) rfl (by decide), c2_amended.2 envFail cfgT "boom" (by decide)⟩
  intro j hj
  have hj0 : j = 0 := by omega
  subst hj0
  decide

/- A first-check breach exits the discussion half-turn before the adapter
   call, leaving the call log untouched. -/
theorem halfA1_breachExit (env : Env) (cfg : ChatConfig) (s : ChatState)
    (hstop0 : env.stopAt s.stops = false)
    (hbr : breach cfg env s.checks = true) :
    halfA1 env cfg s =
      { s with stops := s.stops + 1, checks := s.checks + 1,
               done := some Outcome.timeLimit } := by
  simp only [halfA1, hstop0, hbr]
  simp

/- A first-check breach exits the debate iteration before any call. -/
theorem debIter_breachExit (env : Env) (cfg : ChatConfig) (s : DebState)
    (hbr : breach cfg env s.checks = true) :
    debIter env cfg s =
      { s with checks := s.checks + 1, done := some Outcome.timeLimit } := by
  simp only [debIter, hbr]
  simp

/-- C4, counterexample.  The claim asserts the time limit is compared at the
start of every half-turn including the debate opening half-turn, with a
breached budget starting no half-turn.  In a debate whose elapsed time
already exceeds the nonzero limit at every check, the opening half-turn is
nevertheless executed: one adapter call is made and its turn emitted before
the first check fires. -/
theorem c4_counterexample :
    (∀ n, cfgDebTL.timeLimit ≤ envTime.elapsed n) ∧
    (runDebate envTime cfgDebTL).callLog.length = 1 ∧
    (runDebate envTime cfgDebTL).turns.length = 1 ∧
    (runDebate envTime cfgDebTL).done = some Outcome.timeLimit := by
  refine ⟨fun n => ?_, by decide, by decide, by decide⟩
  show (1 : Nat) ≤ 5
  decide

/- A first-check breach exits the second discussion half-turn before the
   adapter call, leaving every list untouched. -/
theorem halfA2_breachExit (env : Env) (cfg : ChatConfig) (s : ChatState)
    (hstop0 : env.stopAt s.stops = false)
    (hbr : breach cfg env s.checks = true) :
    halfA2 env cfg s =
      { s with stops := s.stops + 1, checks := s.checks + 1,
               done := some Outcome.timeLimit } := by
  simp only [halfA2, hstop0, hbr]
  simp

/- A breach at the post-call check of the first discussion half-turn
   discards the in-flight reply: the call is logged but no turn recorded. -/
theorem halfA1_breach_post (env : Env) (cfg : ChatConfig) (s : ChatState)
    (hstop : ∀ n, env.stopAt n = false)
    (hbr0 : breach cfg env s.checks = false)
    (hbr1 : breach cfg env (s.checks + 1) = true) :
    (halfA1 env cfg s).done = some Outcome.timeLimit ∧
    (halfA1 env cfg s).turns = s.turns ∧
    (halfA1 env cfg s).callLog.length = s.callLog.length + 1 ∧
    (halfA1 env cfg s).calls = s.calls + 1 := by
  simp only [halfA1, hstop, hbr0, hbr1]
  simp

theorem halfA2_breach_post (env : Env) (cfg : ChatConfig) (s : ChatState)
    (hstop : ∀ n, env.stopAt n = false)
    (hbr0 : breach cfg env s.checks = false)
    (hbr1 : breach cfg env (s.checks + 1) = true) :
    (halfA2 env cfg s).done = some Outcome.timeLimit ∧
    (halfA2 env cfg s).turns = s.turns ∧
    (halfA2 env cfg s).callLog.length = s.callLog.length + 1 ∧
    (halfA2 env cfg s).calls = s.calls + 1 := by
  simp only [halfA2, hstop, hbr0, hbr1]
  simp

/- Counter bookkeeping of a completed discussion half-turn: one call logged,
   one turn emitted, two stop reads and two time checks consumed. -/
theorem halfA1_ok_counters (env : Env) (cfg : ChatConfig) (s : ChatState)
    (hstop : ∀ n, env.stopAt n = false)
    (hbr0 : breach cfg env s.checks = false)
    (hbr1 : breach cfg env (s.checks + 1) = false) :
    (halfA1 env cfg s).done = s.done ∧
    (halfA1 env cfg s).turns.length = s.turns.length + 1 ∧
    (halfA1 env cfg s).callLog.length = s.callLog.length + 1 ∧
    (halfA1 env cfg s).calls = s.calls + 1 ∧
    (halfA1 env cfg s).checks = s.checks + 2 ∧
    (halfA1 env cfg s).stops = s.stops + 2 := by
  simp only [halfA1, hstop, hbr0, hbr1]
  simp

theorem halfA2_ok_counters (env : Env) (cfg : ChatConfig) (s : ChatState)
    (hstop : ∀ n, env.stopAt n = false)
    (hbr0 : breach cfg env s.checks = false)
    (hbr1 : breach cfg env (s.checks + 1) = false) :
    (halfA2 env cfg s).done = s.done ∧
    (halfA2 env cfg s).turns.length = s.turns.length + 1 ∧
    (halfA2 env cfg s).callLog.length = s.callLog.length + 1 ∧
    (halfA2 env cfg s).calls = s.calls + 1 ∧
    (halfA2 env cfg s).checks = s.checks + 2 ∧
    (halfA2 env cfg s).stops = s.stops + 2 := by
  simp only [halfA2, hstop, hbr0, hbr1]
  simp

/- In the discussion loop, time check number 2c precedes adapter call c and
   check number 2c+1 follows it.  If every check before index b passes and
   check b breaches, the run stops at check b: ceil((b+1)/2) calls were
   made and floor(b/2) turns recorded, so no call after the breaching check
   starts and a reply in flight at an odd breach index is discarded. -/
theorem chatLoop_firstBreach (env : Env) (cfg : ChatConfig) (b : Nat)
    (hstop : ∀ n, env.stopAt n = false)
    (hbf : ∀ j, j < b → breach cfg env j = false)
    (hb : breach cfg env b = true) :
    ∀ n i s, s.done = none → s.checks = 4 * i → s.calls = 2 * i →
      s.callLog.length = 2 * i → s.turns.length = 2 * i →
      4 * i ≤ b → b < 4 * (i + n) →
      (chatLoop env cfg n s).done = some Outcome.timeLimit ∧
      (chatLoop env cfg n s).callLog.length = (b + 1) / 2 ∧
      (chatLoop env cfg n s).turns.length = b / 2 := by
  intro n
  induction n with
  | zero =>
    intro i s _ _ _ _ _ h6 h7
    omega
  | succ n ih =>
    intro i s hdone hch hca hcl htn h6 h7
    simp only [chatLoop]
    rw [if_neg (by simp [hdone])]
    by_cases hb0 : b = 4 * i
    · have hbr : breach cfg env s.checks = true := by
        rw [hch, ← hb0]; exact hb
      have e1 := halfA1_breachExit env cfg s (hstop s.stops) hbr
      have hcr : chatRound env cfg s = halfA1 env cfg s := by
        simp only [chatRound]
        rw [e1]
        simp
      rw [hcr, e1, chatLoop_done env cfg n _ (by simp)]
      refine ⟨rfl, ?_, ?_⟩
      · show s.callLog.length = (b + 1) / 2
        rw [hcl]; omega
      · show s.turns.length = b / 2
        rw [htn]; omega
    · have hbr0 : breach cfg env s.checks = false := by
        rw [hch]; exact hbf _ (by omega)
      by_cases hb1 : b = 4 * i + 1
      · have hbr1 : breach cfg env (s.checks + 1) = true := by
          rw [hch, show 4 * i + 1 = b by omega]; exact hb
        obtain ⟨d1, t1, l1, c1⟩ := halfA1_breach_post env cfg s hstop hbr0 hbr1
        have hcr : chatRound env cfg s = halfA1 env cfg s := by
          simp only [chatRound]
          rw [if_pos (by simp [d1])]
        rw [hcr, chatLoop_done env cfg n _ (by simp [d1])]
        refine ⟨d1, ?_, ?_⟩
        · rw [l1, hcl]; omega
        · rw [t1, htn]; omega
      · have hbr1 : breach cfg env (s.checks + 1) = false := by
          rw [hch]; exact hbf _ (by omega)
        obtain ⟨d1, t1, l1, c1, k1, p1⟩ := halfA1_ok_counters env cfg s hstop hbr0 hbr1
        have hd1 : (halfA1 env cfg s).done = none := by rw [d1, hdone]
        have hcr : chatRound env cfg s = halfA2 env cfg (halfA1 env cfg s) := by
          simp only [chatRound]
          rw [if_neg (by simp [hd1])]
        by_cases hb2 : b = 4 * i + 2
        · have hbr2 : breach cfg env (halfA1 env cfg s).checks = true := by
            rw [k1, hch, show 4 * i + 2 = b by omega]; exact hb
          have e2 := halfA2_breachExit env cfg (halfA1 env cfg s)
            (hstop _) hbr2
          rw [hcr, e2, chatLoop_done env cfg n _ (by simp)]
          refine ⟨rfl, ?_, ?_⟩
          · show (halfA1 env cfg s).callLog.length = (b + 1) / 2
            rw [l1, hcl]; omega
          · show (halfA1 env cfg s).turns.length = b / 2
            rw [t1, htn]; omega
        · by_cases hb3 : b = 4 * i + 3
          · have hbr2 : breach cfg env (halfA1 env cfg s).checks = false := by
              rw [k1, hch]; exact hbf _ (by omega)
            have hbr3 : breach cfg env ((halfA1 env cfg s).checks + 1) = true := by
              rw [k1, hch, show 4 * i + 2 + 1 = b by omega]; exact hb
            obtain ⟨d2, t2, l2, c2⟩ := halfA2_breach_post env cfg
              (halfA1 env cfg s) hstop hbr2 hbr3
            rw [hcr, chatLoop_done env cfg n _ (by simp [d2])]
            refine ⟨d2, ?_, ?_⟩
            · rw [l2, l1, hcl]; omega
            · rw [t2, t1, htn]; omega
          · have hbr2 : breach cfg env (halfA1 env cfg s).checks = false := by
              rw [k1, hch]; exact hbf _ (by omega)
            have hbr3 : breach cfg env ((halfA1 env cfg s).checks + 1) = false := by
              rw [k1, hch]; exact hbf _ (by omega)
            obtain ⟨d2, t2, l2, c2, k2, p2⟩ := halfA2_ok_counters env cfg
              (halfA1 env cfg s) hstop hbr2 hbr3
            rw [hcr]
            exact ih (i + 1) _ (by rw [d2, hd1]) (by rw [k2, k1, hch]; omega)
              (by rw [c2, c1, hca]; omega) (by rw [l2, l1, hcl]; omega)
              (by rw [t2, t1, htn]; omega) (by omega) (by omega)

/- A breach at the second check of a debate iteration stops the run after
   the con call was made and its turn emitted, before the pro call. -/
theorem debIter_breach_mid (env : Env) (cfg : ChatConfig) (s : DebState)
    (hstop : ∀ n, env.stopAt n = false)
    (hbr0 : breach cfg env s.checks = false)
    (hbr1 : breach cfg env (s.checks + 1) = true)
    (h2 : (env.resp s.calls).success = true) :
    (debIter env cfg s).done = some Outcome.timeLimit ∧
    (debIter env cfg s).turns.length = s.turns.length + 1 ∧
    (debIter env cfg s).callLog.length = s.callLog.length + 1 ∧
    (debIter env cfg s).calls = s.calls + 1 := by
  simp only [debIter, hstop, hbr0, hbr1, h2]
  simp

/- A debate iteration whose two checks pass and whose two calls succeed,
   stated with explicit check indices instead of a disabled limit. -/
theorem debIter_okB (env : Env) (cfg : ChatConfig) (s : DebState)
    (hstop : ∀ n, env.stopAt n = false)
    (hbr0 : breach cfg env s.checks = false)
    (hbr1 : breach cfg env (s.checks + 1) = false)
    (h2 : (env.resp s.calls).success = true)
    (h1 : (env.resp (s.calls + 1)).success = true) :
    debIter env cfg s = { s with
      turns := s.turns ++ [⟨"ai2", (env.resp s.calls).content.getD ""⟩,
        ⟨"ai1", (env.resp (s.calls + 1)).content.getD ""⟩],
      a1Msgs := s.a1Msgs ++ [⟨"assistant", (env.resp s.calls).content.getD ""⟩,
        ⟨"user", rebutCon⟩],
      a2Msgs := s.a2Msgs ++ [⟨"assistant", (env.resp (s.calls + 1)).content.getD ""⟩,
        ⟨"user", rebutPro⟩],
      callLog := s.callLog ++ [s.a2Msgs,
        s.a1Msgs ++ [⟨"assistant", (env.resp s.calls).content.getD ""⟩,
          ⟨"user", rebutCon⟩]],
      calls := s.calls + 1 + 1, checks := s.checks + 1 + 1,
      stops := s.stops + 1 + 1 } := by
  simp only [debIter, hstop, hbr0, hbr1, h2, h1]
  simp

/- In the debate loop, time check number c precedes adapter call c+1 (the
   opening call 0 is unguarded).  With all calls succeeding, if every check
   before index b passes and check b breaches, the run stops at check b
   with exactly b+1 calls made and b+1 turns emitted. -/
theorem debLoop_firstBreach (env : Env) (cfg : ChatConfig) (b : Nat)
    (hok : ∀ n, (env.resp n).success = true)
    (hstop : ∀ n, env.stopAt n = false)
    (hbf : ∀ j, j < b → breach cfg env j = false)
    (hb : breach cfg env b = true) :
    ∀ n t s, s.done = none → s.checks = 2 * t → s.calls = 2 * t + 1 →
      s.callLog.length = 2 * t + 1 → s.turns.length = 2 * t + 1 →
      2 * t ≤ b → b < 2 * (t + n) →
      (debLoop env cfg n s).done = some Outcome.timeLimit ∧
      (debLoop env cfg n s).callLog.length = b + 1 ∧
      (debLoop env cfg n s).turns.length = b + 1 := by
  intro n
  induction n with
  | zero =>
    intro t s _ _ _ _ _ h6 h7
    omega
  | succ n ih =>
    intro t s hdone hch hca hcl htn h6 h7
    simp only [debLoop]
    rw [if_neg (by simp [hdone])]
    by_cases hb0 : b = 2 * t
    · have hbr : breach cfg env s.checks = true := by
        rw [hch, ← hb0]; exact hb
      rw [debIter_breachExit env cfg s hbr,
        debLoop_done env cfg n _ (by simp)]
      refine ⟨rfl, ?_, ?_⟩
      · show s.callLog.length = b + 1
        rw [hcl]; omega
      · show s.turns.length = b + 1
        rw [htn]; omega
    · have hbr0 : breach cfg env s.checks = false := by
        rw [hch]; exact hbf _ (by omega)
      by_cases hb1 : b = 2 * t + 1
      · have hbr1 : breach cfg env (s.checks + 1) = true := by
          rw [hch, show 2 * t + 1 = b by omega]; exact hb
        obtain ⟨d1, t1, l1, c1⟩ := debIter_breach_mid env cfg s hstop
          hbr0 hbr1 (hok _)
        rw [debLoop_done env cfg n _ (by simp [d1])]
        refine ⟨d1, ?_, ?_⟩
        · rw [l1, hcl]; omega
        · rw [t1, htn]; omega
      · have hbr1 : breach cfg env (s.checks + 1) = false := by
          rw [hch]; exact hbf _ (by omega)
        rw [debIter_okB env cfg s hstop hbr0 hbr1 (hok _) (hok _)]
        exact ih (t + 1) _ (by simp [hdone]) (by simp [hch]; omega)
          (by simp [hca]; omega) (by simp [hcl]; omega)
          (by simp [htn]; omega) (by omega) (by omega)

/-- C4, amended.  A zero timeLimitSeconds disables the time check entirely:
neither run can end in the timeLimit outcome.  With a nonzero limit, the
elapsed time is compared against it at the start of every half-turn — and
in discussion mode again immediately after each adapter call — but not
before the debate opening half-turn, which always executes; at the first
breaching check the run terminates immediately: no further adapter call is
made (discussion stops at check b with ceil((b+1)/2) calls and floor(b/2)
recorded turns, a reply in flight at an odd-index check being discarded;
debate stops at check b with b+1 calls and b+1 turns, call 0 being the
unguarded opening). -/
theorem c4_amended :
    (∀ env cfg, cfg.timeLimit = 0 →
      (runChat env cfg).done ≠ some Outcome.timeLimit ∧
      (runDebate env cfg).done ≠ some Outcome.timeLimit) ∧
    (∀ env cfg b, jsTrim cfg.topic ≠ "" → (∀ n, env.stopAt n = false) →
      (∀ j, j < b → breach cfg env j = false) → breach cfg env b = true →
      (b < 4 * cfg.rounds →
        (runChat env cfg).done = some Outcome.timeLimit ∧
        (runChat env cfg).callLog.length = (b + 1) / 2 ∧
        (runChat env cfg).turns.length = b / 2) ∧
      ((∀ n, (env.resp n).success = true) → b < 2 * (cfg.rounds - 1) →
        (runDebate env cfg).done = some Outcome.timeLimit ∧
        (runDebate env cfg).callLog.length = b + 1 ∧
        (runDebate env cfg).turns.length = b + 1)) := by
  constructor
  · intro env cfg htl
    constructor
    · simp only [runChat]
      split
      · simp
      · have hinit : (chatInit cfg).done = none := rfl
        have hk := chatLoop_no_tl env cfg htl cfg.rounds (chatInit cfg)
        rw [hinit] at hk
        split
        · rcases hk with h | h <;> simp [h]
        · simp
    · simp only [runDebate]
      split
      · simp
      · have hinit : (debInit cfg).done = none := rfl
        rcases debOpen_done_kind env cfg (debInit cfg) with h | ⟨e, h⟩
        · rw [hinit] at h
          rw [if_neg (by simp [h])]
          have hk := debLoop_no_tl env cfg htl (cfg.rounds - 1) (debOpen env cfg (debInit cfg))
          rw [h] at hk
          split
          · rcases hk with h2 | h2 | ⟨e2, h2⟩ <;> simp [h2]
          · simp
        · rw [if_pos (by simp [h])]
          simp [h]
  · intro env cfg b htop hstop hbf hb
    constructor
    · intro hblt
      simp only [runChat]
      rw [if_neg htop]
      obtain ⟨fd, fl, ft⟩ := chatLoop_firstBreach env cfg b hstop hbf hb
        cfg.rounds 0 (chatInit cfg) rfl rfl rfl rfl rfl (by omega) (by omega)
      rw [if_pos (by simp [fd])]
      exact ⟨fd, fl, ft⟩
    · intro hok hblt
      simp only [runDebate]
      rw [if_neg htop]
      have eo := debOpen_ok env cfg (debInit cfg) (hok _)
      set s1 := debOpen env cfg (debInit cfg) with hs1
      have hd1 : s1.done = none := by rw [eo]; rfl
      have h1c : s1.checks = 2 * 0 := by rw [eo]; rfl
      have h1k : s1.calls = 2 * 0 + 1 := by rw [eo]; rfl
      have h1l : s1.callLog.length = 2 * 0 + 1 := by rw [eo]; simp [debInit]
      have h1t : s1.turns.length = 2 * 0 + 1 := by rw [eo]; simp [debInit]
      rw [if_neg (by simp [hd1])]
      obtain ⟨fd, fl, ft⟩ := debLoop_firstBreach env cfg b hok hstop hbf hb
        (cfg.rounds - 1) 0 s1 hd1 h1c h1k h1l h1t (by omega) (by omega)
      rw [if_pos (by simp [fd])]
      exact ⟨fd, fl, ft⟩

/-- Witness for c4_amended: a zero limit never yields the timeLimit
outcome; a discussion whose first breaching check is number 3 stops with 2
logged calls and 1 recorded turn (the in-flight second reply discarded);
a debate whose first breaching check is number 1 stops with 2 calls and 2
turns (the unguarded opening plus the first con reply). -/
theorem c4_amended_witness :
    (runChat envOK cfgT).done ≠ some Outcome.timeLimit ∧
    ((runChat envB3 cfgTL2).done = some Outcome.timeLimit ∧
      (runChat envB3 cfgTL2).callLog.length = (3 + 1) / 2 ∧
      (runChat envB3 cfgTL2).turns.length = 3 / 2) ∧
    ((runDebate envB1 cfgDebTL3).done = some Outcome.timeLimit ∧
      (runDebate envB1 cfgDebTL3).callLog.length = 1 + 1 ∧
      (runDebate envB1 cfgDebTL3).turns.length = 1 + 1) := by
  refine ⟨(c4_amended.1 envOK cfgT rfl).1,
    (c4_amended.2 envB3 cfgTL2 3 (by decide) (fun n => rfl) ?_ (by decide)).1
      (by decide),
    (c4_amended.2 envB1 cfgDebTL3 1 (by decide) (fun n => rfl) ?_ (by decide)).2
      (fun n => rfl) (by decide)⟩
  · intro j hj
    have hj3 : j = 0 ∨ j = 1 ∨ j = 2 := by omega
    rcases hj3 with h | h | h <;> subst h <;> decide
  · intro j hj
    have hj0 : j = 0 := by omega
    subst hj0
    decide

/-- C5, confirmed.  In a discussion half-turn whose checks pass, whenever
the adapter reply is empty or whitespace-only after trimming (or failed,
which the guard treats the same way), the recorded turn content equals the
fixed fallback text and the half-turn completes without terminating the
run, for the half of either participant in the round. -/
theorem c5_empty_fallback (env : Env) (cfg : ChatConfig) (s : ChatState)
    (hdone : s.done = none)
    (h0 : env.stopAt s.stops = false) (h1 : env.stopAt (s.stops + 1) = false)
    (h2 : breach cfg env s.checks = false)
    (h3 : breach cfg env (s.checks + 1) = false)
    (he : effContent (env.resp s.calls) = "") :
    ((halfA1 env cfg s).turns = s.turns ++ [⟨sender1 cfg, fallbackText⟩] ∧
      (halfA1 env cfg s).done = none) ∧
    ((halfA2 env cfg s).turns = s.turns ++ [⟨sender2 cfg, fallbackText⟩] ∧
      (halfA2 env cfg s).done = none) := by
  have hrc : recordedContent (env.resp s.calls) = fallbackText := by
    simp [recordedContent, he]
  refine ⟨⟨?_, ?_⟩, ⟨?_, ?_⟩⟩
  · simp only [halfA1, h0, h1, h2, h3]
    simp [hrc]
  · simp only [halfA1, h0, h1, h2, h3]
    simp [hdone]
  · simp only [halfA2, h0, h1, h2, h3]
    simp [hrc]
  · simp only [halfA2, h0, h1, h2, h3]
    simp [hdone]

/-- Witness for c5_empty_fallback at a whitespace-only successful reply. -/
theorem c5_empty_fallback_witness :
    ((halfA1 envWS cfgT (chatInit cfgT)).turns =
        (chatInit cfgT).turns ++ [⟨sender1 cfgT, fallbackText⟩] ∧
      (halfA1 envWS cfgT (chatInit cfgT)).done = none) ∧
    ((halfA2 envWS cfgT (chatInit cfgT)).turns =
        (chatInit cfgT).turns ++ [⟨sender2 cfgT, fallbackText⟩] ∧
      (halfA2 envWS cfgT (chatInit cfgT)).done = none) :=
  c5_empty_fallback envWS cfgT (chatInit cfgT) rfl rfl rfl rfl rfl (by decide)

/- The last element of a list extended by two entries. -/
theorem getLast_app2 (l : List Msg) (a b : Msg) :
    (l ++ [a, b]).getLast? = some b := by
  rw [show l ++ [a, b] = (l ++ [a]) ++ [b] by simp]
  exact List.getLast?_concat _

theorem debIter_inv (env : Env) (cfg : ChatConfig)
    (hok : ∀ n, (env.resp n).success = true)
    (hstop : ∀ n, env.stopAt n = false) (htl : cfg.timeLimit = 0)
    (j : Nat) (s : DebState) (h : DebInv cfg j s) :
    DebInv cfg (j + 1) (debIter env cfg s) := by
  obtain ⟨hdone, ⟨c0, cs, hlen, hturns⟩, hcl, hlast, ha2⟩ := h
  rw [debIter_ok env cfg s hstop htl (hok _) (hok _)]
  refine ⟨hdone, ?_, ?_, ?_, ?_⟩
  · refine ⟨c0, cs ++ [((env.resp s.calls).content.getD "",
      (env.resp (s.calls + 1)).content.getD "")], by simp [hlen], ?_⟩
    simp only [hturns]
    simp [pairDeb]
  · simp [hcl]
    omega
  · intro k hk1 hk2
    simp only [List.length_append, List.length_cons, List.length_nil] at hk2
    by_cases hlt : k < s.callLog.length
    · rw [List.getD_append _ _ _ _ hlt]
      exact hlast k hk1 hlt
    · have hor : k = s.callLog.length ∨ k = s.callLog.length + 1 := by omega
      rcases hor with hE | hE
      · have : (s.callLog ++ [s.a2Msgs,
            s.a1Msgs ++ [⟨"assistant", (env.resp s.calls).content.getD ""⟩,
              ⟨"user", rebutCon⟩]]).getD k [] = s.a2Msgs := by
          rw [hE]
          rw [List.getD_append_right _ _ _ _ (by omega)]
          simp
        rw [this]
        have hpar : k % 2 = 1 := by omega
        rw [hpar]
        simpa using ha2
      · have : (s.callLog ++ [s.a2Msgs,
            s.a1Msgs ++ [⟨"assistant", (env.resp s.calls).content.getD ""⟩,
              ⟨"user", rebutCon⟩]]).getD k [] =
            s.a1Msgs ++ [⟨"assistant", (env.resp s.calls).content.getD ""⟩,
              ⟨"user", rebutCon⟩] := by
          rw [hE]
          rw [List.getD_append_right _ _ _ _ (by omega)]
          simp
        rw [this]
        have hpar : ¬(k % 2 = 1) := by omega
        rw [if_neg hpar]
        exact getLast_app2 _ _ _
  · exact getLast_app2 _ _ _

theorem debLoop_inv (env : Env) (cfg : ChatConfig)
    (hok : ∀ n, (env.resp n).success = true)
    (hstop : ∀ n, env.stopAt n = false) (htl : cfg.timeLimit = 0) :
    ∀ n j s, DebInv cfg j s → DebInv cfg (j + n) (debLoop env cfg n s) := by
  intro n
  induction n with
  | zero =>
    intro j s h
    simpa [debLoop] using h
  | succ n ih =>
    intro j s h
    simp only [debLoop]
    rw [if_neg (by simp [h.1])]
    have h2 := ih (j + 1) _ (debIter_inv env cfg hok hstop htl j s h)
    rw [show j + (n + 1) = j + 1 + n by omega]
    exact h2

/-- C7, confirmed.  In debate mode with all adapter calls succeeding, no
stop and no time limit, the run completes with participant 1 producing
exactly one opening turn not counted against maxRounds, followed by one
con-then-pro turn pair for each of the maxRounds minus one remaining
rounds; exactly 1 + 2(maxRounds - 1) adapter calls are made and every call
after the opening is prompted with the matching explicit rebuttal
instruction as the trailing user message of its message list. -/
theorem c7_debate_structure (env : Env) (cfg : ChatConfig)
    (hok : ∀ n, (env.resp n).success = true)
    (hstop : ∀ n, env.stopAt n = false)
    (htl : cfg.timeLimit = 0) (htop : jsTrim cfg.topic ≠ "") :
    (runDebate env cfg).done = some Outcome.completed ∧
    (∃ c0 cs, List.length cs = cfg.rounds - 1 ∧
      (runDebate env cfg).turns = ⟨"ai1", c0⟩ :: (List.map pairDeb cs).flatten) ∧
    (runDebate env cfg).callLog.length = 1 + 2 * (cfg.rounds - 1) ∧
    (∀ k, 1 ≤ k → k < (runDebate env cfg).callLog.length →
      ((runDebate env cfg).callLog.getD k []).getLast? =
        some ⟨"user", if k % 2 = 1 then rebutPro else rebutCon⟩) := by
  simp only [runDebate]
  rw [if_neg htop]
  have eo := debOpen_ok env cfg (debInit cfg) (hok _)
  set s1 := debOpen env cfg (debInit cfg) with hs1
  have hinv1 : DebInv cfg 0 s1 := by
    rw [eo]
    refine ⟨rfl, ⟨(env.resp (debInit cfg).calls).content.getD "", [], rfl,
      by simp [debInit]⟩, by simp [debInit], ?_, ?_⟩
    · intro k hk1 hk2
      simp [debInit] at hk2
      omega
    · exact getLast_app2 _ _ _
  rw [if_neg (by simp [hinv1.1])]
  have hinv := debLoop_inv env cfg hok hstop htl (cfg.rounds - 1) 0 s1 hinv1
  obtain ⟨hdone, ⟨c0, cs, hclen, ht⟩, hcl, hlast, _⟩ := hinv
  rw [if_neg (by simp [hdone])]
  refine ⟨by simp, ⟨c0, cs, by omega, by simp [ht]⟩, ?_, ?_⟩
  · simp [hcl]
  · intro k hk1 hk2
    simp only [] at hk2 ⊢
    exact hlast k hk1 (by simpa using hk2)

/-- Witness for c7_debate_structure at a concrete two-round debate with
uniformly successful calls. -/
theorem c7_debate_structure_witness :
    (runDebate envOK cfgDeb2).done = some Outcome.completed ∧
    (∃ c0 cs, List.length cs = cfgDeb2.rounds - 1 ∧
      (runDebate envOK cfgDeb2).turns = ⟨"ai1", c0⟩ :: (List.map pairDeb cs).flatten) ∧
    (runDebate envOK cfgDeb2).callLog.length = 1 + 2 * (cfgDeb2.rounds - 1) ∧
    (∀ k, 1 ≤ k → k < (runDebate envOK cfgDeb2).callLog.length →
      ((runDebate envOK cfgDeb2).callLog.getD k []).getLast? =
        some ⟨"user", if k % 2 = 1 then rebutPro else rebutCon⟩) :=
  c7_debate_structure envOK cfgDeb2 (fun n => rfl) (fun n => rfl) rfl (by decide)
